import Mathlib

/-!
A verification development for `copy_repo_src.py`, a script that copies the
single public source directory of an input repository into an output
repository and merges missing requirement declarations into the output
repository requirements file.

The embedding below models the Python code shallowly:

* Python strings are Lean `String`s; the string primitives the script uses
  (`str.replace` on single characters, `str.split`, `str.strip`,
  string comparison) are given structural definitions over `String.data`
  that mirror the CPython semantics (code-point wise operations).
* Filesystem state is passed explicitly: a requirements file is
  `Option (List String)` (`none` means the file does not exist, `some lines`
  is the result of `readlines`), the children of the input repository root
  are a list of entries carrying a name and a directory flag, and the whole
  mutable world of the script is the structure `World`.
* Exceptions are modelled with `Except` / an explicit error value; the two
  failures the script can raise itself carry the data their messages report.
-/

namespace CopyRepoSrc

/-! ### Python string primitives -/

/-- The characters treated as whitespace by `str.strip()` (ASCII range):
space, tab, newline, carriage return, vertical tab, form feed. -/
def pyIsSpace (c : Char) : Bool :=
  c = ' ' || c = '\t' || c = '\n' || c = '\r' || c = Char.ofNat 11 || c = Char.ofNat 12

/-- `str.strip()`: remove leading and trailing whitespace. -/
def pyStrip (s : List Char) : List Char :=
  ((s.dropWhile pyIsSpace).reverse.dropWhile pyIsSpace).reverse

/-- `str.replace(old, new)` for single-character arguments: replace every
occurrence of `oldC` by `newC`. -/
def pyReplaceChar (oldC newC : Char) (s : List Char) : List Char :=
  s.map (fun c => if c = oldC then newC else c)

/-- `str.split(sep)` for a single-character separator: split on every
occurrence of `sep`.  The result is always nonempty; splitting the empty
string yields `[[]]`, exactly as in Python. -/
def pySplit (sep : Char) : List Char → List (List Char)
  | [] => [[]]
  | c :: cs =>
    if c = sep then [] :: pySplit sep cs
    else
      match pySplit sep cs with
      | [] => [[c]]
      | h :: t => (c :: h) :: t

/-- Python string comparison `a <= b` on lists of code points:
lexicographic comparison by the order on `Char`. -/
def pyListLE : List Char → List Char → Bool
  | [], _ => true
  | _ :: _, [] => false
  | a :: as, b :: bs =>
    if a < b then true
    else if b < a then false
    else pyListLE as bs

/-- Python string comparison `a <= b` on `String`. -/
def pyStrLE (a b : String) : Bool :=
  pyListLE a.data b.data

/-- The ordering relation used to model Python `list.sort()` on strings. -/
def pyLineLE (a b : String) : Prop :=
  pyStrLE a b = true

instance : DecidableRel pyLineLE := fun a b => by
  unfold pyLineLE; infer_instance

/-! ### The requirements merge (`add_input_repo_requirements`) -/

/-- The canonical package-name key of one requirements line, from
`copy_repo_src.py` line 191:
`lambda x: x.replace('>', '=').replace('<', '=').split('=')[0].strip()`. -/
def _get_pkg_name_fn (x : String) : String :=
  String.mk (pyStrip ((pySplit '=' (pyReplaceChar '<' '=' (pyReplaceChar '>' '=' x.data))).headD []))

/-- `add_input_repo_requirements`, modelled as a function from the contents
of the two requirements files to the final contents of the output
requirements file.  `none` means the file does not exist.  The branches
mirror the source exactly:

* no input file: return immediately (output file untouched);
* no output file: `touch` it (so from here on it exists, initially empty);
* no wanted requirement: return (output file keeps its current content);
* otherwise remove the output file and rewrite it with the sorted merge.
-/
def add_input_repo_requirements (input_file output_file : Option (List String)) :
    Option (List String) :=
  match input_file with
  | none => output_file
  | some input_reqs =>
    let output_reqs := output_file.getD []
    let input_package_names := input_reqs.map _get_pkg_name_fn
    let output_package_names := output_reqs.map _get_pkg_name_fn
    let wanted_input_reqs :=
      ((input_reqs.zip input_package_names).filter
        (fun rp => !(output_package_names.contains rp.2))).map Prod.fst
    if wanted_input_reqs.length = 0 then some output_reqs
    else some (List.insertionSort pyLineLE (wanted_input_reqs ++ output_reqs))

/-- The sequence of observable states of the output requirements file during
the rewrite performed by `add_input_repo_requirements` (lines 207 to 209 of
the source): the file holds its original lines, then `os.remove` deletes it,
then `open(path, 'w')` recreates it empty, then `writelines` appends the new
lines one by one. -/
def requirements_write_states (output_reqs new_reqs : List String) :
    List (Option (List String)) :=
  some output_reqs :: none :: (List.range (new_reqs.length + 1)).map (fun k => some (new_reqs.take k))

/-! ### Locating the single public directory -/

/-- One immediate child of the input repository root: its entry name and
whether it is a directory. -/
structure DirEntry where
  name : String
  isDir : Bool
deriving DecidableEq

/-- The errors the script raises itself, carrying the data reported in the
corresponding exception messages.  The spec names them
`DirectoryResolutionError` (with the offending candidate names) and
`DirectorySizeError` (with the measured size in gigabytes). -/
inductive PyError where
  | directoryResolutionError (candidateNames : List String)
  | directorySizeError (measuredGigabytes : ℚ)
deriving DecidableEq

/-- Does a name start with the given character?  Used to model the
`fnmatch`-style patterns `.*` and `_*` of `pathlib.Path.glob`. -/
def startsWithChar (c : Char) (s : String) : Bool :=
  match s.data with
  | [] => false
  | d :: _ => d = c

/-- `pathlib.Path.glob` matches names against `fnmatch`-style patterns; the
pattern `*` matches every entry name (unlike the `glob` module, `fnmatch`
gives no special treatment to a leading dot). -/
def globStarMatches (_name : String) : Bool :=
  true

/-- `get_single_public_directory` from the source (lines 93 to 114),
modelled on the list of immediate children of the repository root.

* `hidden_dirs`: children matching the glob `./.*` that are directories;
* `private_dirs`: children matching the glob `./_*` that are directories;
* `public_dirs`: children matching the glob `./*` (every name) that are
  directories and are not members of `hidden_dirs + private_dirs`,
  then with any child named `tests` removed;
* exactly one must remain, otherwise a `ValueError` is raised whose message
  carries the names of the remaining candidates.
-/
def get_single_public_directory (children : List DirEntry) : Except PyError DirEntry :=
  let hidden_dirs := (children.filter (fun p => startsWithChar '.' p.name)).filter
    (fun p => p.isDir)
  let private_dirs := (children.filter (fun p => startsWithChar '_' p.name)).filter
    (fun p => p.isDir)
  let public_dirs := (children.filter (fun p => globStarMatches p.name)).filter
    (fun p => p.isDir && !((hidden_dirs ++ private_dirs).contains p))
  let public_dirs := public_dirs.filter (fun p => p.name != "tests")
  if public_dirs.length ≠ 1 then
    Except.error (PyError.directoryResolutionError (public_dirs.map (fun d => d.name)))
  else
    Except.ok (public_dirs.headD { name := "", isDir := false })

/-- The children that are non-hidden, non-private, non-`tests` directories:
the candidates the claims call eligible public directories. -/
def eligibleChildren (children : List DirEntry) : List DirEntry :=
  children.filter
    (fun p => p.isDir && !startsWithChar '.' p.name && !startsWithChar '_' p.name
      && p.name != "tests")

/-! ### The size guard (`check_small_dir`) -/

/-- `check_small_dir` from the source (lines 117 to 131).  The measured byte
count (`os.path.getsize`) is passed in as a rational; the Python default for
`max_gigabytes` is `0.001`, written `1 / 1000` at the call site of the
orchestrator below. -/
def check_small_dir (dir_bytes_size : ℚ) (max_gigabytes : ℚ) : Except PyError Unit :=
  let dir_gigabytes_size := dir_bytes_size / 1073741824
  if max_gigabytes < dir_gigabytes_size then
    Except.error (PyError.directorySizeError dir_gigabytes_size)
  else
    Except.ok ()

/-! ### Path resolution (`get_inputted_repo_paths`) -/

/-- A `pathlib.PurePosixPath`: whether the path is absolute, and its
components (parsing drops empty components and `.` components). -/
structure PyPath where
  absolute : Bool
  parts : List String
deriving DecidableEq

/-- Parsing a path string, as `pathlib` does: the path is absolute iff the
string starts with `/`; the components are the nonempty, non-`.` chunks
between slashes. -/
def pyPathParse (s : String) : PyPath :=
  { absolute := startsWithChar '/' s
    parts := ((pySplit '/' s.data).map String.mk).filter (fun c => c != "" && c != ".") }

/-- The `/` operator of `pathlib`: if the right operand is absolute it
replaces the left one, otherwise the components are concatenated. -/
def pyPathJoin (a b : PyPath) : PyPath :=
  if b.absolute then b else { absolute := a.absolute, parts := a.parts ++ b.parts }

/-- `get_inputted_repo_paths` from the source (lines 64 to 90), given the
current working directory and the two argument strings: each argument is
parsed, kept as-is when absolute, and otherwise joined onto the current
working directory. -/
def get_inputted_repo_paths (cwd : PyPath) (input_repo output_repo : String) :
    PyPath × PyPath :=
  let input_repo_path := pyPathParse input_repo
  let output_repo_path := pyPathParse output_repo
  let input_repo_path :=
    if input_repo_path.absolute then input_repo_path else pyPathJoin cwd input_repo_path
  let output_repo_path :=
    if output_repo_path.absolute then output_repo_path else pyPathJoin cwd output_repo_path
  (input_repo_path, output_repo_path)

/-! ### The directory copy and the orchestrator -/

/-- `copy_directory` at the level of the names of the top-level entries of
the output repository: `cp -R` creates an entry named after the source
directory (merging into it if an entry of that name already exists). -/
def copy_directory (input_dir_name : String) (outputEntries : List String) : List String :=
  if outputEntries.contains input_dir_name then outputEntries
  else outputEntries ++ [input_dir_name]

/-- The mutable world the script touches: the children of the input
repository root, the byte size `os.path.getsize` reports for each child
name, the contents of the two requirements files, and the top-level entries
of the output repository. -/
structure World where
  inputChildren : List DirEntry
  sizeOf : String → ℚ
  inputReqs : Option (List String)
  outputEntries : List String
  outputReqs : Option (List String)

/-- The `__main__` block of the source (lines 212 to 222): locate the single
public directory, size-check it, copy it, then merge the requirements.  An
uncaught exception stops the script at the failing step, so on failure the
world is returned unchanged together with the error; the first two steps
only read the filesystem. -/
def run_main (w : World) : World × Option PyError :=
  match get_single_public_directory w.inputChildren with
  | Except.error e => (w, some e)
  | Except.ok public_dir =>
    match check_small_dir (w.sizeOf public_dir.name) (1 / 1000) with
    | Except.error e => (w, some e)
    | Except.ok _ =>
      let outputEntries := copy_directory public_dir.name w.outputEntries
      let outputReqs := add_input_repo_requirements w.inputReqs w.outputReqs
      ({ w with outputEntries := outputEntries, outputReqs := outputReqs }, none)

/-- A concrete world whose input repo root holds two public directories. -/
def twoPublicWorld : World :=
  { inputChildren := [⟨"a", true⟩, ⟨"b", true⟩]
    sizeOf := fun _ => 0
    inputReqs := some ["requests==2.0\n"]
    outputEntries := []
    outputReqs := none }

/-- A concrete world whose single public directory weighs a full gibibyte. -/
def bigDirWorld : World :=
  { inputChildren := [⟨"widgets", true⟩]
    sizeOf := fun _ => 1073741824
    inputReqs := some ["requests==2.0\n"]
    outputEntries := []
    outputReqs := none }

/-! ### Basic lemmas about the ordering used by `list.sort` -/

theorem pyListLE_total : ∀ a b : List Char, pyListLE a b = true ∨ pyListLE b a = true
  | [], _ => Or.inl rfl
  | _ :: _, [] => Or.inr rfl
  | a :: as, b :: bs => by
    simp only [pyListLE]
    rcases lt_trichotomy a b with h | h | h
    · simp [h, not_lt_of_lt h]
    · subst h
      simpa [lt_irrefl] using pyListLE_total as bs
    · simp [h, not_lt_of_lt h]

theorem pyListLE_trans :
    ∀ a b c : List Char, pyListLE a b = true → pyListLE b c = true → pyListLE a c = true
  | [], _, _, _, _ => rfl
  | _ :: _, [], _, hab, _ => by simp [pyListLE] at hab
  | _ :: _, _ :: _, [], _, hbc => by simp [pyListLE] at hbc
  | a :: as, b :: bs, c :: cs, hab, hbc => by
    simp only [pyListLE] at hab hbc ⊢
    rcases lt_trichotomy a b with h₁ | h₁ | h₁
    · rcases lt_trichotomy b c with h₂ | h₂ | h₂
      · simp [lt_trans h₁ h₂]
      · subst h₂; simp [h₁]
      · simp [h₂, not_lt_of_lt h₂] at hbc
    · subst h₁
      rcases lt_trichotomy a c with h₂ | h₂ | h₂
      · simp [h₂]
      · subst h₂
        simp only [lt_irrefl, if_false] at hab hbc ⊢
        exact pyListLE_trans as bs cs hab hbc
      · simp [h₂, not_lt_of_lt h₂] at hbc
    · simp [h₁, not_lt_of_lt h₁] at hab

instance : IsTotal String pyLineLE :=
  ⟨fun a b => pyListLE_total a.data b.data⟩

instance : IsTrans String pyLineLE :=
  ⟨fun a b c hab hbc => pyListLE_trans a.data b.data c.data hab hbc⟩

/-! ### Lemmas about the requirements merge -/

theorem zip_map_filter_fst {α β : Type _} (f : α → β) (q : β → Bool) :
    ∀ l : List α,
      ((l.zip (l.map f)).filter (fun rp => q rp.2)).map Prod.fst =
        l.filter (fun a => q (f a))
  | [] => rfl
  | a :: l => by
    simp only [List.map_cons, List.zip_cons_cons, List.filter_cons]
    by_cases h : q (f a) <;>
      simp [h, zip_map_filter_fst f q l]

/-- The wanted input requirements are the input lines whose canonical key is
not a key of any output line. -/
theorem wanted_eq (input_reqs output_reqs : List String) :
    ((input_reqs.zip (input_reqs.map _get_pkg_name_fn)).filter
        (fun rp => !((output_reqs.map _get_pkg_name_fn).contains rp.2))).map Prod.fst =
      input_reqs.filter
        (fun r => !((output_reqs.map _get_pkg_name_fn).contains (_get_pkg_name_fn r))) :=
  zip_map_filter_fst _get_pkg_name_fn
    (fun b => !((output_reqs.map _get_pkg_name_fn).contains b)) input_reqs

theorem add_input_repo_requirements_some (input_reqs : List String)
    (output_file : Option (List String)) :
    add_input_repo_requirements (some input_reqs) output_file =
      (if (input_reqs.filter
            (fun r => !(((output_file.getD []).map _get_pkg_name_fn).contains
              (_get_pkg_name_fn r)))).length = 0
       then some (output_file.getD [])
       else some (List.insertionSort pyLineLE
         ((input_reqs.filter
            (fun r => !(((output_file.getD []).map _get_pkg_name_fn).contains
              (_get_pkg_name_fn r)))) ++ output_file.getD []))) := by
  simp only [add_input_repo_requirements]
  rw [wanted_eq]

/-- C5 (amended): if the input repo has a requirements file and every
canonical key of its lines already occurs among the keys of the output
declarations, then the merge leaves the contents of the output requirements
file unchanged when that file exists; when it does not exist, the file is
created empty (by `touch`) and nothing is written into it.  In both cases
the final contents are the lines the output file held before (none, if it
did not exist). -/
theorem add_input_repo_requirements_noop (input_reqs : List String)
    (output_file : Option (List String))
    (h : ∀ r ∈ input_reqs,
      _get_pkg_name_fn r ∈ (output_file.getD []).map _get_pkg_name_fn) :
    add_input_repo_requirements (some input_reqs) output_file =
      some (output_file.getD []) := by
  rw [add_input_repo_requirements_some]
  have hnil : input_reqs.filter
      (fun r => !(((output_file.getD []).map _get_pkg_name_fn).contains
        (_get_pkg_name_fn r))) = [] := by
    rw [List.filter_eq_nil_iff]
    intro a ha
    simp only [Bool.not_eq_true', Bool.not_eq_false]
    exact List.elem_iff.mpr (h a ha)
  rw [hnil]
  rfl

/-- C5, witness. -/
theorem add_input_repo_requirements_noop_witness :
    add_input_repo_requirements (some ["a==2\n"]) (some ["a==1\n"]) = some ["a==1\n"] :=
  add_input_repo_requirements_noop ["a==2\n"] (some ["a==1\n"]) (by decide)

/-- C5, counterexample to the claim as stated: when the input repo has an
(empty) requirements file and the output repo has none, every input key
vacuously occurs among the output keys, yet the output requirements file is
not left unchanged: the code `touch`es it into existence. -/
theorem add_input_repo_requirements_touch_cex :
    add_input_repo_requirements (some []) none ≠ none := by
  decide

/-- C6: when the output repo has no requirements file, the merge creates one
whose lines are exactly the declarations of the input repo, sorted
lexicographically by line text. -/
theorem add_input_repo_requirements_creates_file (input_reqs : List String) :
    ∃ merged, add_input_repo_requirements (some input_reqs) none = some merged ∧
      merged.Perm input_reqs ∧ merged.Sorted pyLineLE := by
  rw [add_input_repo_requirements_some]
  simp only [Option.getD_none, List.map_nil, List.contains_nil, Bool.not_false,
    List.filter_true, List.append_nil]
  by_cases h : input_reqs.length = 0
  · rw [if_pos h]
    rw [List.length_eq_zero] at h
    subst h
    exact ⟨[], rfl, List.Perm.refl _, List.sorted_nil⟩
  · rw [if_neg h]
    exact ⟨_, rfl, List.perm_insertionSort pyLineLE input_reqs,
      List.sorted_insertionSort pyLineLE input_reqs⟩

/-- C8: the rewrite of the output requirements file is not atomic.  At the
failing input (input declarations `["b==1\n"]`, output file holding
`["a==1\n"]`) the merge rewrites the file to `["a==1\n", "b==1\n"]`, and the
sequence of file states produced by `os.remove` followed by `open(_, 'w')`
and `writelines` passes through a state in which the file does not exist,
which is neither the original contents nor the final contents. -/
theorem requirements_rewrite_not_atomic :
    add_input_repo_requirements (some ["b==1\n"]) (some ["a==1\n"]) =
        some ["a==1\n", "b==1\n"] ∧
      none ∈ requirements_write_states ["a==1\n"] ["a==1\n", "b==1\n"] ∧
      (none : Option (List String)) ≠ some ["a==1\n"] ∧
      (none : Option (List String)) ≠ some ["a==1\n", "b==1\n"] := by
  refine ⟨by decide, by decide, by decide, by decide⟩

/-- C1, counterexample to the claim as stated, in two parts.  First, two
input lines with the same canonical key (and an empty output declaration
list) survive the merge together, so the merged file has two lines sharing
one canonical key.  Second, when every input key already occurs among the
output keys the merge is a no-op, so an unsorted output file stays
unsorted. -/
theorem merge_union_claim_cex :
    (¬ (((add_input_repo_requirements (some ["a==1\n", "a==2\n"]) (some [])).getD []).map
        _get_pkg_name_fn).Nodup)
    ∧ add_input_repo_requirements (some ["a==1\n"]) (some ["b==1\n", "a==2\n"]) =
        some ["b==1\n", "a==2\n"]
    ∧ ¬ (["b==1\n", "a==2\n"] : List String).Sorted pyLineLE := by
  refine ⟨by decide, by decide, ?_⟩
  intro hsorted
  have h := List.rel_of_sorted_cons hsorted "a==2\n" (List.mem_singleton.mpr rfl)
  revert h
  decide

/-- C1 (amended): for requirement-line sequences in which each sequence has
pairwise distinct canonical keys and at least one input key is missing from
the output keys, the merge rewrites the output file so that its lines are
exactly the output lines together with the input lines whose key is absent
from the output keys; no two lines of the result share a canonical key, the
key set of the result is the union of the two key sets, and the result is
sorted lexicographically by raw line text. -/
theorem merge_is_key_union (input_reqs output_reqs : List String)
    (hin : (input_reqs.map _get_pkg_name_fn).Nodup)
    (hout : (output_reqs.map _get_pkg_name_fn).Nodup)
    (hnew : ∃ r ∈ input_reqs, _get_pkg_name_fn r ∉ output_reqs.map _get_pkg_name_fn) :
    ∃ merged,
      add_input_repo_requirements (some input_reqs) (some output_reqs) = some merged ∧
      merged.Sorted pyLineLE ∧
      (merged.map _get_pkg_name_fn).Nodup ∧
      (∀ l, l ∈ merged ↔
        l ∈ output_reqs ∨
          (l ∈ input_reqs ∧ _get_pkg_name_fn l ∉ output_reqs.map _get_pkg_name_fn)) ∧
      (∀ k, k ∈ merged.map _get_pkg_name_fn ↔
        k ∈ input_reqs.map _get_pkg_name_fn ∨ k ∈ output_reqs.map _get_pkg_name_fn) := by
  rw [add_input_repo_requirements_some]
  simp only [Option.getD_some]
  set wanted := input_reqs.filter
    (fun r => !((output_reqs.map _get_pkg_name_fn).contains (_get_pkg_name_fn r)))
    with hwanted
  have hmem_wanted : ∀ r, r ∈ wanted ↔
      r ∈ input_reqs ∧ _get_pkg_name_fn r ∉ output_reqs.map _get_pkg_name_fn := by
    intro r
    rw [hwanted, List.mem_filter]
    simp [List.elem_iff]
  have hne : wanted.length ≠ 0 := by
    obtain ⟨r, hr, hrk⟩ := hnew
    have : r ∈ wanted := (hmem_wanted r).mpr ⟨hr, hrk⟩
    intro hlen
    rw [List.length_eq_zero] at hlen
    rw [hlen] at this
    exact absurd this (List.not_mem_nil r)
  rw [if_neg hne]
  have hperm : List.Perm (List.insertionSort pyLineLE (wanted ++ output_reqs))
      (wanted ++ output_reqs) :=
    List.perm_insertionSort pyLineLE (wanted ++ output_reqs)
  refine ⟨_, rfl, List.sorted_insertionSort pyLineLE (wanted ++ output_reqs), ?_, ?_, ?_⟩
  · rw [(hperm.map _get_pkg_name_fn).nodup_iff, List.map_append, List.nodup_append]
    refine ⟨List.Nodup.sublist ((List.filter_sublist input_reqs).map _get_pkg_name_fn) hin,
      hout, ?_⟩
    intro k hk
    rw [List.mem_map] at hk
    obtain ⟨r, hr, rfl⟩ := hk
    exact ((hmem_wanted r).mp hr).2
  · intro l
    rw [hperm.mem_iff, List.mem_append, hmem_wanted l]
    tauto
  · intro k
    rw [(hperm.map _get_pkg_name_fn).mem_iff, List.map_append, List.mem_append]
    constructor
    · rintro (hk | hk)
      · rw [List.mem_map] at hk
        obtain ⟨r, hr, rfl⟩ := hk
        exact Or.inl (List.mem_map_of_mem _get_pkg_name_fn ((hmem_wanted r).mp hr).1)
      · exact Or.inr hk
    · rintro (hk | hk)
      · by_cases hko : k ∈ output_reqs.map _get_pkg_name_fn
        · exact Or.inr hko
        · rw [List.mem_map] at hk
          obtain ⟨r, hr, rfl⟩ := hk
          exact Or.inl (List.mem_map_of_mem _get_pkg_name_fn
            ((hmem_wanted r).mpr ⟨hr, hko⟩))
      · exact Or.inr hk

/-- C1, witness. -/
theorem merge_is_key_union_witness :
    ∃ merged,
      add_input_repo_requirements (some ["b==2\n", "c==3\n"]) (some ["a==1\n", "b==1\n"]) =
        some merged ∧
      merged.Sorted pyLineLE ∧
      (merged.map _get_pkg_name_fn).Nodup ∧
      (∀ l, l ∈ merged ↔
        l ∈ ["a==1\n", "b==1\n"] ∨
          (l ∈ ["b==2\n", "c==3\n"] ∧
            _get_pkg_name_fn l ∉ ["a==1\n", "b==1\n"].map _get_pkg_name_fn)) ∧
      (∀ k, k ∈ merged.map _get_pkg_name_fn ↔
        k ∈ ["b==2\n", "c==3\n"].map _get_pkg_name_fn ∨
          k ∈ ["a==1\n", "b==1\n"].map _get_pkg_name_fn) :=
  merge_is_key_union ["b==2\n", "c==3\n"] ["a==1\n", "b==1\n"] (by decide) (by decide)
    ⟨"c==3\n", by decide, by decide⟩

/-! ### Lemmas about the public-directory search -/

/-- The filtering cascade of `get_single_public_directory` computes exactly
the eligible children, and the function returns the single eligible child,
or an error carrying all eligible names. -/
theorem get_single_public_directory_eq (children : List DirEntry) :
    get_single_public_directory children =
      if (eligibleChildren children).length = 1 then
        Except.ok ((eligibleChildren children).headD { name := "", isDir := false })
      else
        Except.error (PyError.directoryResolutionError
          ((eligibleChildren children).map (fun d => d.name))) := by
  have key :
      (((children.filter (fun p => globStarMatches p.name)).filter
        (fun p => p.isDir &&
          !((((children.filter (fun p => startsWithChar '.' p.name)).filter
                (fun p => p.isDir)) ++
              ((children.filter (fun p => startsWithChar '_' p.name)).filter
                (fun p => p.isDir))).contains p))).filter
        (fun p => p.name != "tests")) = eligibleChildren children := by
    unfold eligibleChildren
    rw [List.filter_filter, List.filter_filter]
    apply List.filter_congr
    intro p hp
    by_cases hdir : p.isDir <;>
      by_cases h1 : startsWithChar '.' p.name <;>
        by_cases h2 : startsWithChar '_' p.name <;>
          simp [globStarMatches, List.mem_append, List.mem_filter, hp, hdir, h1, h2]
  simp only [get_single_public_directory, key]
  by_cases h : (eligibleChildren children).length = 1 <;> simp [h]

/-- C2: if among the immediate children of the input repo root exactly one
is a directory that is non-hidden (name not starting with a dot),
non-private (name not starting with an underscore) and not named `tests`,
then `get_single_public_directory` returns that child; with zero or two or
more such children it fails with the resolution error carrying the list of
candidate names. -/
theorem get_single_public_directory_spec (children : List DirEntry) :
    ((eligibleChildren children).length = 1 →
      ∃ d, eligibleChildren children = [d] ∧
        get_single_public_directory children = Except.ok d)
    ∧ ((eligibleChildren children).length ≠ 1 →
      get_single_public_directory children =
        Except.error (PyError.directoryResolutionError
          ((eligibleChildren children).map (fun d => d.name)))) := by
  rw [get_single_public_directory_eq]
  constructor
  · intro h
    obtain ⟨d, hd⟩ := List.length_eq_one.mp h
    exact ⟨d, hd, by simp [h, hd]⟩
  · intro h
    rw [if_neg h]

/-- C2, witness. -/
theorem get_single_public_directory_spec_witness :
    (∃ d,
      eligibleChildren
          [⟨".git", true⟩, ⟨"_private", true⟩, ⟨"tests", true⟩, ⟨"widgets", true⟩,
            ⟨"README.md", false⟩] = [d] ∧
        get_single_public_directory
          [⟨".git", true⟩, ⟨"_private", true⟩, ⟨"tests", true⟩, ⟨"widgets", true⟩,
            ⟨"README.md", false⟩] = Except.ok d)
    ∧ get_single_public_directory [⟨"a", true⟩, ⟨"b", true⟩] =
        Except.error (PyError.directoryResolutionError ["a", "b"]) :=
  ⟨(get_single_public_directory_spec _).1 (by decide),
    (get_single_public_directory_spec [⟨"a", true⟩, ⟨"b", true⟩]).2 (by decide)⟩

/-! ### The size guard, path resolution and the orchestrator -/

/-- C3: for every measured byte count and every ceiling in gigabytes, the
size check passes when the measured size in gigabytes (the byte count
divided by `2 ^ 30`) is at most the ceiling, and fails with the size error
carrying the measured gigabyte value when it is strictly greater. -/
theorem check_small_dir_spec (dir_bytes_size max_gigabytes : ℚ) :
    (dir_bytes_size / 1073741824 ≤ max_gigabytes →
      check_small_dir dir_bytes_size max_gigabytes = Except.ok ())
    ∧ (max_gigabytes < dir_bytes_size / 1073741824 →
      check_small_dir dir_bytes_size max_gigabytes =
        Except.error (PyError.directorySizeError (dir_bytes_size / 1073741824))) := by
  constructor
  · intro h
    simp only [check_small_dir]
    rw [if_neg (not_lt.mpr h)]
  · intro h
    simp only [check_small_dir]
    rw [if_pos h]

theorem mib_ratio_le_ceiling : (1048576 : ℚ) / 1073741824 ≤ 1 / 1000 := by
  norm_num

theorem gib_ratio_gt_ceiling : (1 / 1000 : ℚ) < 1073741824 / 1073741824 := by
  norm_num

/-- C3, witness: one mebibyte passes the default ceiling, one gibibyte
fails it. -/
theorem check_small_dir_spec_witness :
    check_small_dir 1048576 (1 / 1000) = Except.ok () ∧
      check_small_dir 1073741824 (1 / 1000) =
        Except.error (PyError.directorySizeError ((1073741824 : ℚ) / 1073741824)) :=
  ⟨(check_small_dir_spec 1048576 (1 / 1000)).1 mib_ratio_le_ceiling,
    (check_small_dir_spec 1073741824 (1 / 1000)).2 gib_ratio_gt_ceiling⟩

/-- C9: each of the two argument paths is returned as-is when absolute, and
is the working directory joined with the argument when relative; the
resolution is a total function on path strings (no error value, no
filesystem access in the model). -/
theorem get_inputted_repo_paths_spec (cwd : PyPath) (input_repo output_repo : String) :
    ((pyPathParse input_repo).absolute = true →
      (get_inputted_repo_paths cwd input_repo output_repo).1 = pyPathParse input_repo)
    ∧ ((pyPathParse input_repo).absolute = false →
      (get_inputted_repo_paths cwd input_repo output_repo).1 =
        { absolute := cwd.absolute
          parts := cwd.parts ++ (pyPathParse input_repo).parts })
    ∧ ((pyPathParse output_repo).absolute = true →
      (get_inputted_repo_paths cwd input_repo output_repo).2 = pyPathParse output_repo)
    ∧ ((pyPathParse output_repo).absolute = false →
      (get_inputted_repo_paths cwd input_repo output_repo).2 =
        { absolute := cwd.absolute
          parts := cwd.parts ++ (pyPathParse output_repo).parts }) := by
  refine ⟨fun h => ?_, fun h => ?_, fun h => ?_, fun h => ?_⟩ <;>
    simp [get_inputted_repo_paths, pyPathJoin, h]

/-- C9, witness. -/
theorem get_inputted_repo_paths_spec_witness :
    (get_inputted_repo_paths ⟨true, ["home", "user"]⟩ "/abs/repo" "rel/repo").1 =
        pyPathParse "/abs/repo" ∧
      (get_inputted_repo_paths ⟨true, ["home", "user"]⟩ "/abs/repo" "rel/repo").2 =
        { absolute := true, parts := ["home", "user"] ++ (pyPathParse "rel/repo").parts } :=
  ⟨(get_inputted_repo_paths_spec ⟨true, ["home", "user"]⟩ "/abs/repo" "rel/repo").1
      (by decide),
    (get_inputted_repo_paths_spec ⟨true, ["home", "user"]⟩ "/abs/repo" "rel/repo").2.2.2
      (by decide)⟩

/-- C7: whenever the input repo root does not hold exactly one eligible
public directory, or its single public directory exceeds the size ceiling,
the orchestrated pipeline stops with an error before the copy step, and the
whole world (in particular the output repo: its top-level entries and its
requirements file) is left unmodified. -/
theorem run_main_aborts_unmodified (w : World)
    (h : (eligibleChildren w.inputChildren).length ≠ 1 ∨
      (∃ d, eligibleChildren w.inputChildren = [d] ∧
        (1 / 1000 : ℚ) < w.sizeOf d.name / 1073741824)) :
    (run_main w).1 = w ∧ (run_main w).2.isSome = true := by
  rcases h with h | ⟨d, hd, hsize⟩
  · unfold run_main
    rw [get_single_public_directory_eq, if_neg h]
    exact ⟨rfl, rfl⟩
  · have hlen : (eligibleChildren w.inputChildren).length = 1 := by rw [hd]; rfl
    have hok : get_single_public_directory w.inputChildren = Except.ok d := by
      rw [get_single_public_directory_eq, if_pos hlen, hd]
      rfl
    have herr : check_small_dir (w.sizeOf d.name) (1 / 1000) =
        Except.error (PyError.directorySizeError (w.sizeOf d.name / 1073741824)) := by
      simp only [check_small_dir]
      rw [if_pos hsize]
    rw [one_div] at herr
    unfold run_main
    simp [hok, herr]

theorem big_dir_ratio_gt_ceiling : (1 / 1000 : ℚ) < 1073741824 / 1073741824 := by
  norm_num

/-- C7, witness: with two public directories, and with one oversized public
directory, the world is unchanged and an error is reported. -/
theorem run_main_aborts_unmodified_witness :
    ((run_main twoPublicWorld).1 = twoPublicWorld ∧
        (run_main twoPublicWorld).2.isSome = true)
    ∧ ((run_main bigDirWorld).1 = bigDirWorld ∧
        (run_main bigDirWorld).2.isSome = true) :=
  ⟨run_main_aborts_unmodified twoPublicWorld (Or.inl (by decide)),
    run_main_aborts_unmodified bigDirWorld
      (Or.inr ⟨⟨"widgets", true⟩, by decide, big_dir_ratio_gt_ceiling⟩)⟩

/-! ### Lemmas about the Python string primitives -/

theorem pySplit_ne_nil (sep : Char) : ∀ l : List Char, pySplit sep l ≠ []
  | [] => by simp [pySplit]
  | c :: cs => by
    simp only [pySplit]
    by_cases h : c = sep
    · simp [h]
    · rw [if_neg h]
      cases hs : pySplit sep cs with
      | nil => simp
      | cons a t => simp

/-- The first chunk of a split is the longest initial segment free of the
separator. -/
theorem headD_pySplit (sep : Char) :
    ∀ l : List Char, (pySplit sep l).headD [] = l.takeWhile (fun c => c != sep)
  | [] => rfl
  | c :: cs => by
    simp only [pySplit, List.takeWhile_cons]
    by_cases h : c = sep
    · simp [h]
    · rw [if_neg h]
      have hbne : (c != sep) = true := by simp [h]
      cases hs : pySplit sep cs with
      | nil => exact absurd hs (pySplit_ne_nil sep cs)
      | cons a t =>
        have ih := headD_pySplit sep cs
        rw [hs, List.headD_cons] at ih
        simp [hbne, ih]

theorem takeWhile_append_of_stop {α : Type _} (p : α → Bool) (x : α) (hx : p x = false) :
    ∀ a b : List α, ((a ++ x :: b).takeWhile p) = a.takeWhile p
  | [], b => by simp [List.takeWhile_cons, hx]
  | c :: a, b => by
    simp only [List.cons_append, List.takeWhile_cons]
    by_cases h : p c
    · simp [h, takeWhile_append_of_stop p x hx a b]
    · simp [h]

theorem takeWhile_eq_self_of_all {α : Type _} (p : α → Bool) :
    ∀ l : List α, (∀ c ∈ l, p c = true) → l.takeWhile p = l
  | [], _ => rfl
  | c :: cs, h => by
    have hc := h c (List.mem_cons_self c cs)
    simp [List.takeWhile_cons, hc,
      takeWhile_eq_self_of_all p cs (fun d hd => h d (List.mem_cons_of_mem c hd))]

theorem pyReplaceChar_eq_self (oldC newC : Char) :
    ∀ l : List Char, (∀ c ∈ l, c ≠ oldC) → pyReplaceChar oldC newC l = l
  | [], _ => rfl
  | c :: cs, h => by
    have hc : c ≠ oldC := h c (List.mem_cons_self c cs)
    have ih := pyReplaceChar_eq_self oldC newC cs
      (fun d hd => h d (List.mem_cons_of_mem c hd))
    simp only [pyReplaceChar, List.map_cons] at ih ⊢
    rw [if_neg hc, ih]

/-- After the two `replace` passes, no character is `>` or `<`. -/
theorem mem_pyReplace_ops {l : List Char} {c : Char}
    (hc : c ∈ pyReplaceChar '<' '=' (pyReplaceChar '>' '=' l)) : c ≠ '>' ∧ c ≠ '<' := by
  simp only [pyReplaceChar, List.map_map, List.mem_map] at hc
  obtain ⟨d, _, rfl⟩ := hc
  by_cases h1 : d = '>'
  · simp [h1]
  · by_cases h2 : d = '<'
    · simp [h1, h2]
    · simp [h1, h2]

theorem mem_pyStrip {l : List Char} {c : Char} (hc : c ∈ pyStrip l) : c ∈ l := by
  unfold pyStrip at hc
  rw [List.mem_reverse] at hc
  have h1 := (List.dropWhile_sublist pyIsSpace).subset hc
  rw [List.mem_reverse] at h1
  exact (List.dropWhile_sublist pyIsSpace).subset h1

theorem head?_dropWhile_false {α : Type _} (p : α → Bool) (l : List α) {c : α}
    (h : (l.dropWhile p).head? = some c) : p c = false := by
  have hmatch := List.head?_dropWhile_not p l
  rw [h] at hmatch
  exact hmatch

theorem getLast?_dropWhile_ne_nil {α : Type _} (p : α → Bool) :
    ∀ l : List α, l.dropWhile p ≠ [] → (l.dropWhile p).getLast? = l.getLast?
  | [], h => absurd rfl h
  | c :: cs, h => by
    by_cases hp : p c
    · rw [List.dropWhile_cons_of_pos hp] at h ⊢
      cases cs with
      | nil => exact absurd rfl h
      | cons b bs =>
        rw [getLast?_dropWhile_ne_nil p (b :: bs) h, List.getLast?_cons_cons]
    · rw [List.dropWhile_cons_of_neg hp]

/-- The first remaining character of a stripped string is not whitespace. -/
theorem pyStrip_head? {l : List Char} {c : Char} (h : (pyStrip l).head? = some c) :
    pyIsSpace c = false := by
  unfold pyStrip at h
  rw [List.head?_reverse] at h
  have hne : ((l.dropWhile pyIsSpace).reverse.dropWhile pyIsSpace) ≠ [] := by
    intro hnil
    rw [hnil] at h
    cases h
  rw [getLast?_dropWhile_ne_nil pyIsSpace _ hne, List.getLast?_reverse] at h
  exact head?_dropWhile_false pyIsSpace l h

/-- The last remaining character of a stripped string is not whitespace. -/
theorem pyStrip_getLast? {l : List Char} {c : Char} (h : (pyStrip l).getLast? = some c) :
    pyIsSpace c = false := by
  unfold pyStrip at h
  rw [List.getLast?_reverse] at h
  exact head?_dropWhile_false pyIsSpace (l.dropWhile pyIsSpace).reverse h

/-- Stripping a string whose two ends are not whitespace changes nothing. -/
theorem pyStrip_eq_self {l : List Char}
    (h1 : ∀ c, l.head? = some c → pyIsSpace c = false)
    (h2 : ∀ c, l.getLast? = some c → pyIsSpace c = false) :
    pyStrip l = l := by
  have hd : l.dropWhile pyIsSpace = l := by
    cases l with
    | nil => rfl
    | cons c cs =>
      rw [List.dropWhile_cons_of_neg]
      simp [h1 c rfl]
  have hr : l.reverse.dropWhile pyIsSpace = l.reverse := by
    cases hrev : l.reverse with
    | nil => rfl
    | cons c cs =>
      have hlast : l.getLast? = some c := by
        rw [← List.head?_reverse, hrev]
        rfl
      rw [List.dropWhile_cons_of_neg]
      simp [h2 c hlast]
  unfold pyStrip
  rw [hd, hr, List.reverse_reverse]

theorem pyStrip_idem (l : List Char) : pyStrip (pyStrip l) = pyStrip l :=
  pyStrip_eq_self (fun _ h => pyStrip_head? h) (fun _ h => pyStrip_getLast? h)

/-- The canonical key function in closed form: replace both comparison
characters, take the longest initial segment free of `=`, strip it. -/
theorem _get_pkg_name_fn_eq (x : String) :
    _get_pkg_name_fn x =
      String.mk (pyStrip
        ((pyReplaceChar '<' '=' (pyReplaceChar '>' '=' x.data)).takeWhile
          (fun c => c != '='))) := by
  unfold _get_pkg_name_fn
  rw [headD_pySplit]

/-- Appending a character that both `replace` passes turn into `=`, followed
by anything, does not change the canonical key. -/
theorem key_append_op (name rest : String) (op : Char)
    (hop : pyReplaceChar '<' '=' (pyReplaceChar '>' '=' [op]) = ['=']) :
    _get_pkg_name_fn (name ++ String.mk [op] ++ rest) = _get_pkg_name_fn name := by
  rw [_get_pkg_name_fn_eq, _get_pkg_name_fn_eq]
  have hdata : (name ++ String.mk [op] ++ rest).data = name.data ++ op :: rest.data := by
    simp [String.data_append]
  simp only [pyReplaceChar, List.map_cons, List.map_nil] at hop
  rw [List.cons.injEq] at hop
  have hrep :
      pyReplaceChar '<' '=' (pyReplaceChar '>' '=' (name.data ++ op :: rest.data)) =
        pyReplaceChar '<' '=' (pyReplaceChar '>' '=' name.data) ++
          '=' :: pyReplaceChar '<' '=' (pyReplaceChar '>' '=' rest.data) := by
    simp only [pyReplaceChar, List.map_append, List.map_cons]
    rw [hop.1]
  rw [hdata, hrep, takeWhile_append_of_stop _ '=' (by simp)]

/-- C4: the canonical package-name key function is idempotent, and appending
a version constraint introduced by any of `=`, `>`, `<` leaves the key of the
bare name unchanged; in particular `foo>=1.0`, `foo==1.0`, `foo<2` and `foo`
all map to `foo`. -/
theorem pkg_name_key_idempotent_operator_agnostic :
    (∀ x : String, _get_pkg_name_fn (_get_pkg_name_fn x) = _get_pkg_name_fn x)
    ∧ (∀ name rest : String,
        _get_pkg_name_fn (name ++ "=" ++ rest) = _get_pkg_name_fn name)
    ∧ (∀ name rest : String,
        _get_pkg_name_fn (name ++ ">" ++ rest) = _get_pkg_name_fn name)
    ∧ (∀ name rest : String,
        _get_pkg_name_fn (name ++ "<" ++ rest) = _get_pkg_name_fn name)
    ∧ _get_pkg_name_fn "foo>=1.0" = "foo"
    ∧ _get_pkg_name_fn "foo==1.0" = "foo"
    ∧ _get_pkg_name_fn "foo<2" = "foo"
    ∧ _get_pkg_name_fn "foo" = "foo" := by
  refine ⟨?_, ?_, ?_, ?_, by decide, by decide, by decide, by decide⟩
  · intro x
    rw [_get_pkg_name_fn_eq x]
    set t := pyStrip
      ((pyReplaceChar '<' '=' (pyReplaceChar '>' '=' x.data)).takeWhile
        (fun c => c != '=')) with ht
    rw [_get_pkg_name_fn_eq (String.mk t)]
    have hmem : ∀ c ∈ t, c ≠ '>' ∧ c ≠ '<' ∧ (c != '=') = true := by
      intro c hc
      have hc1 : c ∈ (pyReplaceChar '<' '=' (pyReplaceChar '>' '=' x.data)).takeWhile
          (fun c => c != '=') := mem_pyStrip (ht ▸ hc)
      have hc2 : c ∈ pyReplaceChar '<' '=' (pyReplaceChar '>' '=' x.data) :=
        (List.takeWhile_sublist _).subset hc1
      obtain ⟨hgt, hlt⟩ := mem_pyReplace_ops hc2
      have hcne0 := List.mem_takeWhile_imp hc1
      exact ⟨hgt, hlt, by simpa using hcne0⟩
    have h1 : pyReplaceChar '>' '=' t = t :=
      pyReplaceChar_eq_self _ _ t (fun c hc => (hmem c hc).1)
    have h2 : pyReplaceChar '<' '=' (pyReplaceChar '>' '=' t) = t := by
      rw [h1]
      exact pyReplaceChar_eq_self _ _ t (fun c hc => (hmem c hc).2.1)
    have hdata : (String.mk t).data = t := rfl
    rw [hdata, h2, takeWhile_eq_self_of_all _ t (fun c hc => (hmem c hc).2.2)]
    rw [ht, pyStrip_idem]
  · intro name rest
    exact key_append_op name rest '=' (by decide)
  · intro name rest
    exact key_append_op name rest '>' (by decide)
  · intro name rest
    exact key_append_op name rest '<' (by decide)

/-- C10: every raw line is treated as a dependency declaration; when a line
contains none of `=`, `>`, `<`, its canonical key is the whole line with
surrounding whitespace stripped.  Consequently a comment line or a blank
line of the input requirements file is merged into the output requirements
file whenever no output line has the same stripped text as its key. -/
theorem raw_lines_are_declarations :
    (∀ x : String, (∀ c ∈ x.data, c ≠ '=' ∧ c ≠ '>' ∧ c ≠ '<') →
      _get_pkg_name_fn x = String.mk (pyStrip x.data))
    ∧ add_input_repo_requirements (some ["# tool\n"]) (some ["foo==1.0\n"]) =
        some ["# tool\n", "foo==1.0\n"]
    ∧ add_input_repo_requirements (some ["\n"]) (some ["foo==1.0\n"]) =
        some ["\n", "foo==1.0\n"] := by
  refine ⟨?_, by decide, by decide⟩
  intro x h
  rw [_get_pkg_name_fn_eq]
  have h1 : pyReplaceChar '>' '=' x.data = x.data :=
    pyReplaceChar_eq_self _ _ _ (fun c hc => (h c hc).2.1)
  have h2 : pyReplaceChar '<' '=' x.data = x.data :=
    pyReplaceChar_eq_self _ _ _ (fun c hc => (h c hc).2.2)
  rw [h1, h2, takeWhile_eq_self_of_all _ _ (fun c hc => by simp [(h c hc).1])]

/-- C10, witness: a comment line is a declaration whose key is its stripped
text. -/
theorem raw_lines_are_declarations_witness :
    _get_pkg_name_fn "# tool\n" = String.mk (pyStrip ("# tool\n").data) :=
  raw_lines_are_declarations.1 "# tool\n" (by decide)

end CopyRepoSrc
